import Mathlib

/-!
Shallow embedding of the `atlas_coding_challenge` electric-vehicle ETL pipeline
(`src/electric_vehicle_data_loader.py` and `src/electric_vehicle_analytics.py`).

Database values are modelled as `Value` (NULL, INTEGER, VARCHAR); a table row is a
list of 17 values in schema order.  The CSV file is modelled as its character
content; `csvParseAux` is the record/field state machine of Python's `csv` module
(default dialect: delimiter `,`, quote char `"`, doubled-quote escaping, records
separated by newlines outside quotes).  Newlines are modelled as a single LF
character.  The DuckDB connection is modelled as a committed row list plus a
pending (in-transaction) row list; `executemany` appends to the pending list,
`commit` publishes it, `rollback` discards it.  Insertion failures are modelled
by an oracle giving, per `executemany` call index, the exception it raises
(if any).
-/

namespace EV

/-- A database cell: NULL, an INTEGER/BIGINT, or a VARCHAR. -/
inductive Value where
  | vnull : Value
  | vint : Int → Value
  | vstr : String → Value
deriving DecidableEq, Repr

/-- A table row: the 17 column values in schema order
(VIN, County, City, State, Postal_Code, Model_Year, Make, Model,
Electric_Vehicle_Type, CAFV_Eligibility, Electric_Range, Base_MSRP,
Legislative_District, DOL_Vehicle_ID, Vehicle_Location, Electric_Utility,
Census_Tract). -/
abbrev Row := List Value

/-! ### Python `int()` on strings -/

/-- Whitespace stripped by Python's `int()` (ASCII fragment). -/
def isPySpace (c : Char) : Bool :=
  c == ' ' || c == '\t' || c == '\n' || c == '\r' || c == '\x0b' || c == '\x0c'

def digitVal (c : Char) : Nat := c.toNat - '0'.toNat

/-- Digits after the first one: a `_` is allowed only between two digits. -/
def parseUDigitsAux : Nat → List Char → Option Nat
  | acc, [] => some acc
  | acc, '_' :: c :: rest =>
    if c.isDigit then parseUDigitsAux (acc * 10 + digitVal c) rest else none
  | acc, c :: rest =>
    if c.isDigit then parseUDigitsAux (acc * 10 + digitVal c) rest else none

/-- A nonempty digit string (with `_` grouping) as a natural number. -/
def parseUDigits : List Char → Option Nat
  | [] => none
  | c :: rest => if c.isDigit then parseUDigitsAux (digitVal c) rest else none

/-- Python `int(s)` for decimal strings: strip whitespace, optional sign,
digits (with underscore grouping); `none` when the call raises `ValueError`. -/
def pyInt (s : String) : Option Int :=
  let cs := ((s.toList.dropWhile isPySpace).reverse.dropWhile isPySpace).reverse
  match cs with
  | '+' :: rest => (parseUDigits rest).map (fun n => (n : Int))
  | '-' :: rest => (parseUDigits rest).map (fun n => -(n : Int))
  | _ => (parseUDigits cs).map (fun n => (n : Int))

/-! ### `ElectricVehicleDataLoader._convert_value` -/

/-- The four columns given an `int` converter in `_convert_value`. -/
def numericCols : List String := ["Model_Year", "Electric_Range", "Base_MSRP", "DOL_Vehicle_ID"]

/-- Python method `_convert_value(col, val)`: `None`/empty maps to NULL; the four numeric
columns are parsed with `int` (NULL on `ValueError`); every other column is
passed through unchanged. -/
def convertValue (col : String) (val : Option String) : Value :=
  match val with
  | none => .vnull
  | some s =>
    if s = "" then .vnull
    else if col ∈ numericCols then
      match pyInt s with
      | some n => .vint n
      | none => .vnull
    else .vstr s

/-! ### The Python `csv` module's parser (default dialect) -/

/-- Parser states of the `csv` record reader. -/
inductive CsvState where
  | startRecord : CsvState
  | startField : CsvState
  | inField : CsvState
  | inQuoted : CsvState
  | quoteInQuoted : CsvState
deriving DecidableEq, Repr

/-- Finish the current field (characters are accumulated in reverse). -/
def mkField (cs : List Char) : String := String.mk cs.reverse

/-- The `csv` reader: from a parser state, the reversed current field, the
reversed fields of the current record, and the remaining input, produce the
list of parsed records.  A blank line yields the empty record `[]`; a quoted
field may contain commas, newlines and doubled quotes; at end of input a
pending record is flushed. -/
def csvParseAux : CsvState → List Char → List String → List Char → List (List String)
  | .startRecord, _, _, [] => []
  | _, field, rec, [] => [(mkField field :: rec).reverse]
  | .startRecord, field, rec, c :: rest =>
    if c = '\n' then [] :: csvParseAux .startRecord [] [] rest
    else if c = '\"' then csvParseAux .inQuoted field rec rest
    else if c = ',' then csvParseAux .startField [] (mkField field :: rec) rest
    else csvParseAux .inField (c :: field) rec rest
  | .startField, field, rec, c :: rest =>
    if c = '\n' then (mkField field :: rec).reverse :: csvParseAux .startRecord [] [] rest
    else if c = '\"' then csvParseAux .inQuoted field rec rest
    else if c = ',' then csvParseAux .startField [] (mkField field :: rec) rest
    else csvParseAux .inField (c :: field) rec rest
  | .inField, field, rec, c :: rest =>
    if c = '\n' then (mkField field :: rec).reverse :: csvParseAux .startRecord [] [] rest
    else if c = ',' then csvParseAux .startField [] (mkField field :: rec) rest
    else csvParseAux .inField (c :: field) rec rest
  | .inQuoted, field, rec, c :: rest =>
    if c = '\"' then csvParseAux .quoteInQuoted field rec rest
    else csvParseAux .inQuoted (c :: field) rec rest
  | .quoteInQuoted, field, rec, c :: rest =>
    if c = '\"' then csvParseAux .inQuoted ('\"' :: field) rec rest
    else if c = '\n' then (mkField field :: rec).reverse :: csvParseAux .startRecord [] [] rest
    else if c = ',' then csvParseAux .startField [] (mkField field :: rec) rest
    else csvParseAux .inField (c :: field) rec rest

/-- The state transition of `csvParseAux`, without the accumulated output. -/
def csvStep (st : CsvState) (c : Char) : CsvState :=
  match st with
  | .startRecord =>
    if c = '\n' then .startRecord
    else if c = '\"' then .inQuoted
    else if c = ',' then .startField
    else .inField
  | .startField =>
    if c = '\n' then .startRecord
    else if c = '\"' then .inQuoted
    else if c = ',' then .startField
    else .inField
  | .inField =>
    if c = '\n' then .startRecord
    else if c = ',' then .startField
    else .inField
  | .inQuoted =>
    if c = '\"' then .quoteInQuoted
    else .inQuoted
  | .quoteInQuoted =>
    if c = '\"' then .inQuoted
    else if c = '\n' then .startRecord
    else if c = ',' then .startField
    else .inField

/-- The parser state after consuming the whole input. -/
def finalState (st : CsvState) (s : List Char) : CsvState := s.foldl csvStep st

/-- All records of a CSV text, header included. -/
def csvRecords (s : String) : List (List String) := csvParseAux .startRecord [] [] s.toList

/-- The header row read by `csv.DictReader` (its `fieldnames`). -/
def headerOf (s : String) : List String := (csvRecords s).headD []

/-- The data rows yielded by `csv.DictReader`: every record after the header,
skipping blank records. -/
def dataRecords (s : String) : List (List String) := ((csvRecords s).drop 1).filter (fun r => !r.isEmpty)

/-- The `DictReader` row dictionary lookup, `row.get(col)`: fields are zipped with
the header names (a duplicated header name keeps its last value); header names
beyond the record's length map to `None`; an absent key yields `None`. -/
def dictGet (header : List String) (rec : List String) (col : String) : Option String :=
  let pairs : List (String × Option String) :=
    (header.zip (rec.map some)) ++ (header.drop rec.length).map (fun k => (k, none))
  match pairs.reverse.find? (fun p => p.1 == col) with
  | some p => p.2
  | none => none

/-! ### `ElectricVehicleDataLoader.load_data` -/

/-- The map `CSV_TO_DB_COLUMNS`: CSV header names to database column names, in
insertion order. -/
def csvToDb : List (String × String) :=
  [("VIN (1-10)", "VIN"),
   ("County", "County"),
   ("City", "City"),
   ("State", "State"),
   ("Postal Code", "Postal_Code"),
   ("Model Year", "Model_Year"),
   ("Make", "Make"),
   ("Model", "Model"),
   ("Electric Vehicle Type", "Electric_Vehicle_Type"),
   ("Clean Alternative Fuel Vehicle (CAFV) Eligibility", "CAFV_Eligibility"),
   ("Electric Range", "Electric_Range"),
   ("Base MSRP", "Base_MSRP"),
   ("Legislative District", "Legislative_District"),
   ("DOL Vehicle ID", "DOL_Vehicle_ID"),
   ("Vehicle Location", "Vehicle_Location"),
   ("Electric Utility", "Electric_Utility"),
   ("2020 Census Tract", "Census_Tract")]

/-- The database column list (the values of `CSV_TO_DB_COLUMNS`). -/
def dbColumns : List String := csvToDb.map (fun p => p.2)

/-- One inserted row: `[_convert_value(db_col, row.get(csv_col)) for csv_col in CSV_TO_DB_COLUMNS]`. -/
def convertRecord (header : List String) (rec : List String) : Row :=
  csvToDb.map (fun p => convertValue p.2 (dictGet header rec p.1))

/-- The database connection: committed table contents plus the rows pending in
the open transaction. -/
structure DBState where
  committed : List Row
  pending : List Row
deriving DecidableEq, Repr

/-- SQL `BEGIN TRANSACTION`. -/
def beginTransaction (db : DBState) : DBState := { db with pending := [] }

/-- SQL `COMMIT`: publish the pending rows. -/
def commit (db : DBState) : DBState := { committed := db.committed ++ db.pending, pending := [] }

/-- SQL `ROLLBACK`: discard the pending rows. -/
def rollback (db : DBState) : DBState := { db with pending := [] }

/-- A call `executemany(insert_query, batch)`: append the batch inside the transaction. -/
def executemany (db : DBState) (batch : List Row) : DBState :=
  { db with pending := db.pending ++ batch }

/-- The batching loop, structurally recursive on a fuel bound: each round takes
`islice(reader, b)` rows and stops on an empty batch.  With `b ≥ 1` the fuel
`xs.length` always suffices. -/
def toBatchesF (b : Nat) : Nat → List Row → List (List Row)
  | _, [] => []
  | 0, _ => []
  | fuel + 1, xs => xs.take b :: toBatchesF b fuel (xs.drop b)

/-- Batching in `islice` style: the row stream cut into chunks of `b` rows
(with `b = 0`, `islice` yields an empty batch and the loop breaks at once). -/
def toBatches (b : Nat) (xs : List Row) : List (List Row) :=
  if b = 0 then [] else toBatchesF b xs.length xs

/-- The insertion loop: one `executemany` call per batch; the oracle `fail`
gives the exception (if any) raised by the call with the given index. -/
def insertLoop (fail : Nat → Option String) : Nat → List (List Row) → DBState → Except (String × DBState) DBState
  | _, [], db => .ok db
  | i, batch :: rest, db =>
    match fail i with
    | some e => .error (e, db)
    | none => insertLoop fail (i + 1) rest (executemany db batch)

/-- Python method `load_data`: parse the CSV, convert each record, open a transaction, insert
the rows in batches, then `COMMIT`; on any insertion exception, `ROLLBACK` and
re-raise.  Returns the final connection state and the propagated exception,
if any. -/
def loadData (fail : Nat → Option String) (batchSize : Nat) (text : String) (db : DBState) :
    DBState × Option String :=
  match insertLoop fail 0
      (toBatches batchSize ((dataRecords text).map (convertRecord (headerOf text))))
      (beginTransaction db) with
  | .ok db2 => (commit db2, none)
  | .error (e, db2) => (rollback db2, some e)

/-- The oracle of a run in which no insertion raises. -/
def noFail : Nat → Option String := fun _ => none

/-! ### `ElectricVehicleDataLoader.validate_data_load` -/

/-- Python expression `sum(1 for _ in csv_file)`: the number of lines Python file iteration
yields — one per newline, plus a final unterminated line if any. -/
def pyLines (s : String) : Nat :=
  if s.toList = [] then 0
  else s.toList.count '\n' + (if s.toList.getLast? = some '\n' then 0 else 1)

/-- Python method `validate_data_load`: count the physical lines of the CSV minus one for the
header, compare with `SELECT COUNT(*)`, and raise an `AssertionError` on
mismatch.  The table is only read, never modified. -/
def validateDataLoad (text : String) (db : DBState) : DBState × Option String :=
  let csvRowCount : Int := (pyLines text : Int) - 1
  let dbRowCount : Int := (db.committed.length : Int)
  if dbRowCount ≠ csvRowCount then (db, some "Row count mismatch") else (db, none)

/-- Python method `ElectricVehicleDataLoader.run`: `create_table` (no effect on rows), then
`load_data`, then `validate_data_load`; a load exception propagates and skips
validation. -/
def loaderRun (fail : Nat → Option String) (batchSize : Nat) (text : String) (db : DBState) :
    DBState × Option String :=
  match loadData fail batchSize text db with
  | (db1, some e) => (db1, some e)
  | (db1, none) => validateDataLoad text db1

/-! ### `ElectricVehicleAnalytics` -/

/-- The `City` column of a row. -/
def cityOf (r : Row) : Value := r.getD 2 .vnull

/-- The `Postal_Code` column of a row. -/
def postalOf (r : Row) : Value := r.getD 4 .vnull

/-- The `Model_Year` column of a row. -/
def modelYearOf (r : Row) : Value := r.getD 5 .vnull

/-- The `Make` column of a row. -/
def makeOf (r : Row) : Value := r.getD 6 .vnull

/-- The `Model` column of a row. -/
def modelOf (r : Row) : Value := r.getD 7 .vnull

/-- SQL `COUNT(*)` over the rows whose column `f` holds value `v`
(SQL `GROUP BY` places the NULLs in one group of their own). -/
def countBy (f : Row → Value) (t : List Row) (v : Value) : Nat :=
  t.countP (fun r => decide (f r = v))

/-- Descending order on the count column is total. -/
instance : IsTotal (Value × Nat) (fun a b => b.2 ≤ a.2) :=
  ⟨fun a b => Nat.le_total b.2 a.2⟩

/-- Descending order on the count column is transitive. -/
instance : IsTrans (Value × Nat) (fun a b => b.2 ≤ a.2) :=
  ⟨fun _ _ _ hab hbc => Nat.le_trans hbc hab⟩

/-- Query `count_cars_per_city`: one `(City, COUNT(*))` group row per distinct city
value, ordered by descending count (`ORDER BY num_electric_cars DESC`). -/
def count_cars_per_city (t : List Row) : List (Value × Nat) :=
  List.insertionSort (fun a b => b.2 ≤ a.2)
    (((t.map cityOf).dedup).map (fun c => (c, countBy cityOf t c)))

/-- The number of rows of postal code `p` carrying the given (make, model) pair. -/
def pairCount (t : List Row) (p : Value) (mm : Value × Value) : Nat :=
  t.countP (fun r => decide (postalOf r = p ∧ makeOf r = mm.1 ∧ modelOf r = mm.2))

/-- The distinct (make, model) pairs among the rows of postal code `p`. -/
def pairsOf (t : List Row) (p : Value) : List (Value × Value) :=
  ((t.filter (fun r => decide (postalOf r = p))).map (fun r => (makeOf r, modelOf r))).dedup

/-- Query `most_popular_vehicle_by_postal_code`: per distinct postal code, one row
`(Postal_Code, Make, Model, popularity)` holding a (make, model) pair of
maximal count inside that postal code (`QUALIFY ROW_NUMBER() OVER
(PARTITION BY Postal_Code ORDER BY popularity DESC) = 1`; the engine breaks
ties arbitrarily, modelled here by `List.argmax`). -/
def most_popular_vehicle_by_postal_code (t : List Row) : List (Value × Value × Value × Nat) :=
  ((t.map postalOf).dedup).filterMap (fun p =>
    (List.argmax (pairCount t p) (pairsOf t p)).map (fun mm => (p, mm.1, mm.2, pairCount t p mm)))

/-- Query `count_cars_by_model_year`: one `(Model_Year, COUNT(*))` group row per
distinct model-year value, ordered by descending count. -/
def count_cars_by_model_year (t : List Row) : List (Value × Nat) :=
  List.insertionSort (fun a b => b.2 ≤ a.2)
    (((t.map modelYearOf).dedup).map (fun y => (y, countBy modelYearOf t y)))

/-- One partitioned output file written by `ElectricVehicleAnalytics.run`:
the group key, the subdirectory name, the file name, and the rows written. -/
structure OutFile where
  year : Int
  dir : String
  file : String
  rows : List (Value × Nat)
deriving DecidableEq, Repr

/-- The group keys of `df.groupby('Model_Year')`: the distinct non-null years,
ascending (pandas sorts group keys and drops the null key). -/
def intYears (df : List (Value × Nat)) : List Int :=
  List.insertionSort (fun a b => a ≤ b)
    ((df.filterMap (fun p => match p.1 with | .vint n => some n | _ => none)).dedup)

/-- The partitioned model-year write of `ElectricVehicleAnalytics.run`: for each
group key `year`, the subdirectory `model_year=<year>` receives the single file
`electric_cars_<year>.parquet` holding the group's rows. -/
def partitionByYear (df : List (Value × Nat)) : List OutFile :=
  (intYears df).map (fun y =>
    ⟨y, "model_year=" ++ toString y, "electric_cars_" ++ toString y ++ ".parquet",
      df.filter (fun p => decide (p.1 = Value.vint y))⟩)

/-- The model-year report as written to disk by `ElectricVehicleAnalytics.run`. -/
def modelYearOutputs (t : List Row) : List OutFile :=
  partitionByYear (count_cars_by_model_year t)

/-! ### Newline accounting for the CSV parser -/

/-- The number of LF characters in a character list. -/
def nlChars (cs : List Char) : Nat := cs.count '\n'

/-- The number of LF characters in a field. -/
def nlStr (f : String) : Nat := f.toList.count '\n'

/-- The number of LF characters embedded in a record's fields. -/
def nlRec (r : List String) : Nat := (r.map nlStr).sum

/-- The number of LF characters embedded in a record list. -/
def nlOut (o : List (List String)) : Nat := (o.map nlRec).sum

/-- One if the parse of `s` from `st` will flush a pending record at end of
input, zero otherwise. -/
def flushCount (st : CsvState) (s : List Char) : Nat :=
  if finalState st s = .startRecord then 0 else 1

/-! ### A small concrete table for instantiating the query properties -/

/-- A row with the given City, Postal_Code, Make, Model and Model_Year and
NULL elsewhere. -/
def sampleRow (city postal mk md year : Value) : Row :=
  [Value.vnull, Value.vnull, city, Value.vnull, postal, year, mk, md,
   Value.vnull, Value.vnull, Value.vnull, Value.vnull, Value.vnull, Value.vnull,
   Value.vnull, Value.vnull, Value.vnull]

/-- Four registrations: two cities, a shared postal code, two model years and
one NULL model year. -/
def sampleTable : List Row :=
  [sampleRow (Value.vstr "Seattle") (Value.vstr "98908") (Value.vstr "TESLA")
     (Value.vstr "MODEL 3") (Value.vint 2020),
   sampleRow (Value.vstr "Seattle") (Value.vstr "98908") (Value.vstr "TESLA")
     (Value.vstr "MODEL 3") (Value.vint 2021),
   sampleRow (Value.vstr "Tacoma") (Value.vstr "98908") (Value.vstr "VOLVO")
     (Value.vstr "S60") (Value.vint 2020),
   sampleRow (Value.vstr "Tacoma") Value.vnull (Value.vstr "VOLVO")
     (Value.vstr "S60") Value.vnull]

/-! ### The spec's wording of the stored-row rule -/

/-- The spec's column rule for a stored cell, written from its wording (§8,
amended for blanks): a numeric column stores NULL on a blank, missing or
non-numeric source value and the parsed integer otherwise; any other column
stores its non-blank source value verbatim, and NULL on a blank or missing
value. -/
def specStored (col : String) (v : Option String) : Value :=
  if col ∈ numericCols then
    match v with
    | some s =>
      if s ≠ "" then
        match pyInt s with
        | some n => .vint n
        | none => .vnull
      else .vnull
    | none => .vnull
  else
    match v with
    | some s => if s ≠ "" then .vstr s else .vnull
    | none => .vnull

/-- The spec-side description of a full stored row. -/
def specRow (header : List String) (rec : List String) : Row :=
  csvToDb.map (fun p => specStored p.2 (dictGet header rec p.1))

/-! ## Lemmas about the insertion loop and batching -/

theorem insertLoop_ok (fail : Nat → Option String) :
    ∀ (bs : List (List Row)) (i : Nat) (db db2 : DBState),
      insertLoop fail i bs db = .ok db2 →
      db2.committed = db.committed ∧ db2.pending = db.pending ++ bs.flatten := by
  intro bs
  induction bs with
  | nil =>
    intro i db db2 h
    simp only [insertLoop, Except.ok.injEq] at h
    subst h
    simp
  | cons b rest ih =>
    intro i db db2 h
    rw [insertLoop] at h
    cases hf : fail i with
    | some e => rw [hf] at h; exact absurd h (by simp)
    | none =>
      rw [hf] at h
      obtain ⟨h1, h2⟩ := ih (i + 1) _ db2 h
      refine ⟨h1, ?_⟩
      rw [h2]
      simp [executemany, List.append_assoc]

theorem insertLoop_error (fail : Nat → Option String) :
    ∀ (bs : List (List Row)) (i : Nat) (db db2 : DBState) (e : String),
      insertLoop fail i bs db = .error (e, db2) →
      db2.committed = db.committed ∧ ∃ j, fail j = some e := by
  intro bs
  induction bs with
  | nil =>
    intro i db db2 e h
    simp only [insertLoop] at h
    exact absurd h (by simp)
  | cons b rest ih =>
    intro i db db2 e h
    rw [insertLoop] at h
    cases hf : fail i with
    | some e2 =>
      rw [hf] at h
      simp only [Except.error.injEq, Prod.mk.injEq] at h
      obtain ⟨he, hdb⟩ := h
      subst he; subst hdb
      exact ⟨rfl, i, hf⟩
    | none =>
      rw [hf] at h
      obtain ⟨h1, h2⟩ := ih (i + 1) _ db2 e h
      exact ⟨h1, h2⟩

theorem insertLoop_noFail_ok :
    ∀ (bs : List (List Row)) (i : Nat) (db : DBState),
      insertLoop noFail i bs db = .ok ⟨db.committed, db.pending ++ bs.flatten⟩ := by
  intro bs
  induction bs with
  | nil => intro i db; simp [insertLoop]
  | cons b rest ih =>
    intro i db
    rw [insertLoop]
    show insertLoop noFail (i + 1) rest (executemany db b) = _
    rw [ih (i + 1) (executemany db b)]
    simp [executemany, List.append_assoc]

theorem toBatchesF_flatten (b : Nat) (hb : b ≠ 0) :
    ∀ (fuel : Nat) (xs : List Row), xs.length ≤ fuel → (toBatchesF b fuel xs).flatten = xs := by
  intro fuel
  induction fuel with
  | zero =>
    intro xs hx
    have hnil : xs = [] := List.eq_nil_of_length_eq_zero (Nat.le_zero.mp hx)
    subst hnil
    simp [toBatchesF]
  | succ n ih =>
    intro xs hx
    cases xs with
    | nil => simp [toBatchesF]
    | cons x rest =>
      rw [toBatchesF]
      simp only [List.flatten_cons]
      rw [ih ((x :: rest).drop b) ?_]
      · exact List.take_append_drop b (x :: rest)
      · rw [List.length_drop]
        simp only [List.length_cons] at hx ⊢
        omega
      · simp

theorem toBatches_flatten (b : Nat) (hb : b ≠ 0) (xs : List Row) :
    (toBatches b xs).flatten = xs := by
  unfold toBatches
  rw [if_neg hb]
  exact toBatchesF_flatten b hb xs.length xs le_rfl

/-- On a successful `load_data` the committed table gains exactly the converted
data records, in CSV order, whatever the batch size and failure oracle. -/
theorem loadData_ok_shape (fail : Nat → Option String) (b : Nat) (text : String) (db : DBState)
    (hb : b ≠ 0) (hok : (loadData fail b text db).2 = none) :
    (loadData fail b text db).1 =
      ⟨db.committed ++ (dataRecords text).map (convertRecord (headerOf text)), []⟩ := by
  unfold loadData at hok ⊢
  cases hI : insertLoop fail 0
      (toBatches b ((dataRecords text).map (convertRecord (headerOf text))))
      (beginTransaction db) with
  | ok db2 =>
    obtain ⟨h1, h2⟩ := insertLoop_ok fail _ _ _ _ hI
    simp only [hI]
    simp only [commit, h1, h2, beginTransaction]
    rw [toBatches_flatten b hb]
    simp
  | error p =>
    simp only [hI] at hok
    simp at hok

/-! ## Claim theorems: the loader's transaction, row count, and batch size -/

/-- C1: if any exception is raised during the batched insertion phase of
`load_data`, the entire transaction is rolled back — the committed table is
exactly as before the call, with nothing pending and no partial commit — and
the exception re-raised to the caller is the one raised by a failing
insertion call. -/
theorem load_data_rolls_back_and_reraises (fail : Nat → Option String) (b : Nat)
    (text : String) (db : DBState) (e : String)
    (herr : (loadData fail b text db).2 = some e) :
    (loadData fail b text db).1 = ⟨db.committed, []⟩ ∧ ∃ i, fail i = some e := by
  unfold loadData at herr ⊢
  cases hI : insertLoop fail 0
      (toBatches b ((dataRecords text).map (convertRecord (headerOf text))))
      (beginTransaction db) with
  | ok db2 =>
    simp only [hI] at herr
    simp at herr
  | error p =>
    obtain ⟨pe, pdb⟩ := p
    obtain ⟨h1, h2⟩ := insertLoop_error fail _ _ _ _ _ hI
    simp only [hI] at herr ⊢
    simp at herr
    subst herr
    refine ⟨?_, h2⟩
    simp only [beginTransaction] at h1
    cases pdb
    simp_all [rollback]

/-- C1 witness: a batch-0 insertion failure on a one-record CSV leaves the
pre-existing committed row untouched and re-raises the oracle's exception. -/
theorem load_data_rolls_back_and_reraises_witness :
    (loadData (fun i => if i = 0 then some "boom" else none) 1 "A\n1\n"
        ⟨[[Value.vstr "x"]], []⟩).2 = some "boom" ∧
    (loadData (fun i => if i = 0 then some "boom" else none) 1 "A\n1\n"
        ⟨[[Value.vstr "x"]], []⟩).1 = ⟨[[Value.vstr "x"]], []⟩ ∧
    ∃ i, (fun i : Nat => if i = 0 then some "boom" else none) i = some "boom" := by
  have herr : (loadData (fun i => if i = 0 then some "boom" else none) 1 "A\n1\n"
      ⟨[[Value.vstr "x"]], []⟩).2 = some "boom" := by rfl
  exact ⟨herr, load_data_rolls_back_and_reraises _ 1 _ _ _ herr⟩

/-- C3: after a successful `load_data` (commit reached) on an initially empty
table, the table's row count equals the number of CSV data records (header
excluded), for every failure oracle and positive batch size. -/
theorem load_data_row_count (fail : Nat → Option String) (b : Nat) (text : String)
    (db : DBState) (hb : b ≠ 0) (hdb : db.committed = [])
    (hok : (loadData fail b text db).2 = none) :
    (loadData fail b text db).1.committed.length = (dataRecords text).length := by
  rw [loadData_ok_shape fail b text db hb hok]
  simp [hdb]

/-- C3 witness: loading a header plus one data record into an empty table
commits exactly one row. -/
theorem load_data_row_count_witness :
    (1 : Nat) ≠ 0 ∧
    (loadData noFail 1 "A\n1\n" ⟨[], []⟩).2 = none ∧
    (loadData noFail 1 "A\n1\n" ⟨[], []⟩).1.committed.length = (dataRecords "A\n1\n").length := by
  have hok : (loadData noFail 1 "A\n1\n" ⟨[], []⟩).2 = none := by rfl
  exact ⟨by decide, hok, load_data_row_count noFail 1 "A\n1\n" ⟨[], []⟩ (by decide) rfl hok⟩

/-- C5: with the same CSV input, the same starting table, and any two positive
batch sizes, `load_data` produces identical results — the batch size has no
effect on the loaded data. -/
theorem load_data_batch_size_no_effect (b1 b2 : Nat) (text : String) (db : DBState)
    (h1 : b1 ≠ 0) (h2 : b2 ≠ 0) :
    loadData noFail b1 text db = loadData noFail b2 text db := by
  have hshape : ∀ b, b ≠ 0 →
      loadData noFail b text db =
        (⟨db.committed ++ (dataRecords text).map (convertRecord (headerOf text)), []⟩, none) := by
    intro b hb
    unfold loadData
    rw [insertLoop_noFail_ok]
    simp [commit, beginTransaction, toBatches_flatten b hb]
  rw [hshape b1 h1, hshape b2 h2]

/-- C5 witness: batch sizes 1 and 2 load a two-record CSV identically. -/
theorem load_data_batch_size_no_effect_witness :
    (1 : Nat) ≠ 0 ∧ (2 : Nat) ≠ 0 ∧
    loadData noFail 1 "A\n1\n2\n" ⟨[], []⟩ = loadData noFail 2 "A\n1\n2\n" ⟨[], []⟩ :=
  ⟨by decide, by decide,
    load_data_batch_size_no_effect 1 2 "A\n1\n2\n" ⟨[], []⟩ (by decide) (by decide)⟩

/-! ## Claim theorems: post-load validation -/

/-- C4: after a successful `load_data`, `validate_data_load` raises exactly when
the table's row count differs from the CSV's physical line count minus one (the
header); it runs only after the commit, performs no retry or correction, and in
either outcome the committed rows are returned unchanged. -/
theorem validate_data_load_raises_iff_mismatch (fail : Nat → Option String) (b : Nat)
    (text : String) (db : DBState)
    (hok : (loadData fail b text db).2 = none) :
    (loaderRun fail b text db).1 = (loadData fail b text db).1 ∧
    ((loaderRun fail b text db).2.isSome ↔
      (((loadData fail b text db).1.committed.length : Int) ≠ (pyLines text : Int) - 1)) := by
  unfold loaderRun
  cases hL : loadData fail b text db with
  | mk db1 o =>
    rw [hL] at hok
    simp only at hok
    subst hok
    simp only
    unfold validateDataLoad
    by_cases hc : ((db1.committed.length : Int) ≠ (pyLines text : Int) - 1)
    · rw [if_pos hc]
      simp [hc]
    · rw [if_neg hc]
      simp [hc]

/-- C4 witness: a one-record CSV loads one row and the counts match, so no
error is raised and the committed table is returned as is. -/
theorem validate_data_load_raises_iff_mismatch_witness :
    (loadData noFail 1 "A\n1\n" ⟨[], []⟩).2 = none ∧
    (loaderRun noFail 1 "A\n1\n" ⟨[], []⟩).1 = (loadData noFail 1 "A\n1\n" ⟨[], []⟩).1 ∧
    ((loaderRun noFail 1 "A\n1\n" ⟨[], []⟩).2.isSome ↔
      (((loadData noFail 1 "A\n1\n" ⟨[], []⟩).1.committed.length : Int) ≠
        (pyLines "A\n1\n" : Int) - 1)) := by
  have hok : (loadData noFail 1 "A\n1\n" ⟨[], []⟩).2 = none := by rfl
  exact ⟨hok, validate_data_load_raises_iff_mismatch noFail 1 "A\n1\n" ⟨[], []⟩ hok⟩

/-! ## Newline accounting for the CSV parser -/

theorem nlRec_reverse (r : List String) : nlRec r.reverse = nlRec r := by
  simp [nlRec, List.map_reverse, List.sum_reverse]

theorem nlStr_mkField (field : List Char) : nlStr (mkField field) = nlChars field := by
  simp [nlStr, mkField, nlChars]

theorem nlRec_cons (f : String) (r : List String) : nlRec (f :: r) = nlStr f + nlRec r := by
  simp [nlRec]

theorem nlOut_cons (r : List String) (o : List (List String)) :
    nlOut (r :: o) = nlRec r + nlOut o := by
  simp [nlOut]

theorem nlChars_cons (c : Char) (cs : List Char) :
    nlChars (c :: cs) = (if c = '\n' then 1 else 0) + nlChars cs := by
  simp [nlChars, List.count_cons]
  by_cases h : c = '\n' <;> simp [h]
  omega

theorem flushCount_cons (st : CsvState) (c : Char) (s : List Char) :
    flushCount st (c :: s) = flushCount (csvStep st c) s := by
  simp [flushCount, finalState]

theorem nlChars_nil : nlChars [] = 0 := rfl

theorem nlRec_nil : nlRec [] = 0 := rfl

theorem nlOut_nil : nlOut [] = 0 := rfl

theorem nlRec_append (a b : List String) : nlRec (a ++ b) = nlRec a + nlRec b := by
  simp [nlRec]

/-- Every record boundary of the parse consumes a newline of the input (or the
final flush): the record count, plus the newlines left embedded in fields,
never exceeds the newlines of the input (and of the accumulators) plus the
final flush. -/
theorem csvParseAux_newline_bound :
    ∀ (input : List Char) (st : CsvState) (field : List Char) (rec : List String),
      (csvParseAux st field rec input).length + nlOut (csvParseAux st field rec input) ≤
        nlChars input + nlChars field + nlRec rec + flushCount st input := by
  intro input
  induction input with
  | nil =>
    intro st field rec
    cases st <;>
      simp [csvParseAux, nlOut_cons, nlOut_nil, nlRec_append, nlRec_reverse, nlRec_cons,
        nlRec_nil, nlStr_mkField, nlChars_nil, flushCount, finalState, nlChars] <;>
      omega
  | cons c rest ih =>
    intro st field rec
    rw [flushCount_cons]
    cases st with
    | startRecord =>
      by_cases h1 : c = '\n'
      · subst h1
        have h := ih .startRecord [] []
        simp [csvParseAux, csvStep, nlOut_cons, nlOut_nil, nlRec_append, nlRec_reverse,
          nlRec_cons, nlRec_nil, nlStr_mkField, nlChars_nil, nlChars_cons] at h ⊢
        omega
      · by_cases h2 : c = '\"'
        · subst h2
          have h := ih .inQuoted field rec
          simp [csvParseAux, csvStep, nlOut_cons, nlOut_nil, nlRec_append, nlRec_reverse,
            nlRec_cons, nlRec_nil, nlStr_mkField, nlChars_nil, nlChars_cons,
            (by decide : ('\"' : Char) ≠ '\n')] at h ⊢
          omega
        · by_cases h3 : c = ','
          · subst h3
            have h := ih .startField [] (mkField field :: rec)
            simp [csvParseAux, csvStep, nlOut_cons, nlOut_nil, nlRec_append, nlRec_reverse,
              nlRec_cons, nlRec_nil, nlStr_mkField, nlChars_nil, nlChars_cons,
              (by decide : (',' : Char) ≠ '\n'), (by decide : (',' : Char) ≠ '\"')] at h ⊢
            omega
          · have h := ih .inField (c :: field) rec
            simp [csvParseAux, csvStep, nlOut_cons, nlOut_nil, nlRec_append, nlRec_reverse,
              nlRec_cons, nlRec_nil, nlStr_mkField, nlChars_nil, nlChars_cons,
              h1, h2, h3] at h ⊢
            omega
    | startField =>
      by_cases h1 : c = '\n'
      · subst h1
        have h := ih .startRecord [] []
        simp [csvParseAux, csvStep, nlOut_cons, nlOut_nil, nlRec_append, nlRec_reverse,
          nlRec_cons, nlRec_nil, nlStr_mkField, nlChars_nil, nlChars_cons] at h ⊢
        omega
      · by_cases h2 : c = '\"'
        · subst h2
          have h := ih .inQuoted field rec
          simp [csvParseAux, csvStep, nlOut_cons, nlOut_nil, nlRec_append, nlRec_reverse,
            nlRec_cons, nlRec_nil, nlStr_mkField, nlChars_nil, nlChars_cons,
            (by decide : ('\"' : Char) ≠ '\n')] at h ⊢
          omega
        · by_cases h3 : c = ','
          · subst h3
            have h := ih .startField [] (mkField field :: rec)
            simp [csvParseAux, csvStep, nlOut_cons, nlOut_nil, nlRec_append, nlRec_reverse,
              nlRec_cons, nlRec_nil, nlStr_mkField, nlChars_nil, nlChars_cons,
              (by decide : (',' : Char) ≠ '\n'), (by decide : (',' : Char) ≠ '\"')] at h ⊢
            omega
          · have h := ih .inField (c :: field) rec
            simp [csvParseAux, csvStep, nlOut_cons, nlOut_nil, nlRec_append, nlRec_reverse,
              nlRec_cons, nlRec_nil, nlStr_mkField, nlChars_nil, nlChars_cons,
              h1, h2, h3] at h ⊢
            omega
    | inField =>
      by_cases h1 : c = '\n'
      · subst h1
        have h := ih .startRecord [] []
        simp [csvParseAux, csvStep, nlOut_cons, nlOut_nil, nlRec_append, nlRec_reverse,
          nlRec_cons, nlRec_nil, nlStr_mkField, nlChars_nil, nlChars_cons] at h ⊢
        omega
      · by_cases h3 : c = ','
        · subst h3
          have h := ih .startField [] (mkField field :: rec)
          simp [csvParseAux, csvStep, nlOut_cons, nlOut_nil, nlRec_append, nlRec_reverse,
            nlRec_cons, nlRec_nil, nlStr_mkField, nlChars_nil, nlChars_cons,
            (by decide : (',' : Char) ≠ '\n')] at h ⊢
          omega
        · have h := ih .inField (c :: field) rec
          simp [csvParseAux, csvStep, nlOut_cons, nlOut_nil, nlRec_append, nlRec_reverse,
            nlRec_cons, nlRec_nil, nlStr_mkField, nlChars_nil, nlChars_cons,
            h1, h3] at h ⊢
          omega
    | inQuoted =>
      by_cases h2 : c = '\"'
      · subst h2
        have h := ih .quoteInQuoted field rec
        simp [csvParseAux, csvStep, nlOut_cons, nlOut_nil, nlRec_append, nlRec_reverse,
          nlRec_cons, nlRec_nil, nlStr_mkField, nlChars_nil, nlChars_cons,
          (by decide : ('\"' : Char) ≠ '\n')] at h ⊢
        omega
      · by_cases h1 : c = '\n'
        · subst h1
          have h := ih .inQuoted ('\n' :: field) rec
          simp [csvParseAux, csvStep, nlOut_cons, nlOut_nil, nlRec_append, nlRec_reverse,
            nlRec_cons, nlRec_nil, nlStr_mkField, nlChars_nil, nlChars_cons,
            (by decide : ('\n' : Char) ≠ '\"')] at h ⊢
          omega
        · have h := ih .inQuoted (c :: field) rec
          simp [csvParseAux, csvStep, nlOut_cons, nlOut_nil, nlRec_append, nlRec_reverse,
            nlRec_cons, nlRec_nil, nlStr_mkField, nlChars_nil, nlChars_cons,
            h1, h2] at h ⊢
          omega
    | quoteInQuoted =>
      by_cases h2 : c = '\"'
      · subst h2
        have h := ih .inQuoted ('\"' :: field) rec
        simp [csvParseAux, csvStep, nlOut_cons, nlOut_nil, nlRec_append, nlRec_reverse,
          nlRec_cons, nlRec_nil, nlStr_mkField, nlChars_nil, nlChars_cons,
          (by decide : ('\"' : Char) ≠ '\n')] at h ⊢
        omega
      · by_cases h1 : c = '\n'
        · subst h1
          have h := ih .startRecord [] []
          simp [csvParseAux, csvStep, nlOut_cons, nlOut_nil, nlRec_append, nlRec_reverse,
            nlRec_cons, nlRec_nil, nlStr_mkField, nlChars_nil, nlChars_cons,
            (by decide : ('\n' : Char) ≠ '\"')] at h ⊢
          omega
        · by_cases h3 : c = ','
          · subst h3
            have h := ih .startField [] (mkField field :: rec)
            simp [csvParseAux, csvStep, nlOut_cons, nlOut_nil, nlRec_append, nlRec_reverse,
              nlRec_cons, nlRec_nil, nlStr_mkField, nlChars_nil, nlChars_cons,
              (by decide : (',' : Char) ≠ '\n'), (by decide : (',' : Char) ≠ '\"')] at h ⊢
            omega
          · have h := ih .inField (c :: field) rec
            simp [csvParseAux, csvStep, nlOut_cons, nlOut_nil, nlRec_append, nlRec_reverse,
              nlRec_cons, nlRec_nil, nlStr_mkField, nlChars_nil, nlChars_cons,
              h1, h2, h3] at h ⊢
            omega

theorem flushCount_le_one (st : CsvState) (s : List Char) : flushCount st s ≤ 1 := by
  unfold flushCount
  split <;> omega

/-! ## Claim theorem: embedded newlines defeat the line-count validation -/

/-- C10: `validate_data_load` counts physical lines, not CSV records; on a CSV
whose parsed data contains a field with an embedded newline (and which, if it
ends in a newline, ends it outside of quotes), a fully successful `load_data`
into an empty table is nevertheless followed by a raised validation error,
since the line count exceeds the record count. -/
theorem validate_raises_on_embedded_newline (fail : Nat → Option String) (b : Nat)
    (text : String) (db : DBState)
    (hb : b ≠ 0) (hdb : db.committed = [])
    (hok : (loadData fail b text db).2 = none)
    (hterm : text.toList.getLast? = some '\n' → finalState .startRecord text.toList = .startRecord)
    (hemb : ∃ r ∈ dataRecords text, ∃ f ∈ r, '\n' ∈ f.toList) :
    (loaderRun fail b text db).2.isSome := by
  obtain ⟨r, hr, f, hf, hnl⟩ := hemb
  -- the committed row count is the data-record count
  have hshape := loadData_ok_shape fail b text db hb hok
  -- abbreviations
  set R := (csvRecords text).length with hR
  set E := nlOut (csvRecords text) with hE
  set N := nlChars text.toList with hN
  set F := flushCount .startRecord text.toList with hF
  set D := (dataRecords text).length with hD
  -- the main accounting bound
  have hmain : R + E ≤ N + F := by
    have h := csvParseAux_newline_bound text.toList .startRecord [] []
    simpa [csvRecords, nlChars_nil, nlRec_nil] using h
  -- at least one newline is embedded in the parsed records
  have hrmem : r ∈ csvRecords text := by
    have h1 : r ∈ (csvRecords text).drop 1 := (List.mem_filter.mp hr).1
    exact List.mem_of_mem_drop h1
  have hE1 : 1 ≤ E := by
    have h1 : (1 : Nat) ≤ nlStr f := by
      have : 0 < f.toList.count '\n' := List.count_pos_iff.mpr hnl
      simpa [nlStr] using this
    have h2 : nlStr f ≤ nlRec r := by
      have : nlStr f ∈ r.map nlStr := List.mem_map_of_mem nlStr hf
      exact List.single_le_sum (fun x _ => Nat.zero_le x) _ this
    have h3 : nlRec r ≤ E := by
      have : nlRec r ∈ (csvRecords text).map nlRec := List.mem_map_of_mem nlRec hrmem
      exact List.single_le_sum (fun x _ => Nat.zero_le x) _ this
    omega
  -- the data-record count is below the record count
  have hDpos : 1 ≤ D := List.length_pos.mpr (List.ne_nil_of_mem hr)
  have hD1 : D ≤ R - 1 := by
    have h1 : D ≤ ((csvRecords text).drop 1).length := by
      rw [hD]
      unfold dataRecords
      exact List.length_filter_le _ _
    simpa [List.length_drop] using h1
  -- the text is nonempty
  have htl : text.toList ≠ [] := by
    intro hnil
    have : csvRecords text = [] := by
      unfold csvRecords
      rw [hnil]
      rfl
    rw [this] at hrmem
    exact absurd hrmem (List.not_mem_nil r)
  -- the physical line count
  have hpy : pyLines text = N + (if text.toList.getLast? = some '\n' then 0 else 1) := by
    unfold pyLines
    rw [if_neg htl]
    rfl
  -- the strict gap between line count and data-record count
  have hgap : D + 1 < pyLines text := by
    by_cases hlast : text.toList.getLast? = some '\n'
    · have hF0 : F = 0 := by
        rw [hF]
        unfold flushCount
        rw [if_pos (hterm hlast)]
      rw [hpy, if_pos hlast]
      omega
    · have hF1 : F ≤ 1 := flushCount_le_one _ _
      rw [hpy, if_neg hlast]
      omega
  -- run the validation
  unfold loaderRun
  cases hL : loadData fail b text db with
  | mk db1 o =>
    rw [hL] at hok hshape
    simp only at hok hshape
    subst hok
    have hlen : db1.committed.length = D := by
      rw [hshape]
      simp [hdb]
    simp only
    unfold validateDataLoad
    rw [if_pos ?_]
    · rfl
    · rw [hlen]
      omega

/-- C10 witness: a CSV whose single data record has a quoted field holding an
embedded newline loads successfully yet fails validation. -/
theorem validate_raises_on_embedded_newline_witness :
    (loadData noFail 1 "A,B\n\"x\ny\",2\n" ⟨[], []⟩).2 = none ∧
    (∃ r ∈ dataRecords "A,B\n\"x\ny\",2\n", ∃ f ∈ r, '\n' ∈ f.toList) ∧
    (loaderRun noFail 1 "A,B\n\"x\ny\",2\n" ⟨[], []⟩).2.isSome := by
  refine ⟨by rfl, by decide, ?_⟩
  exact validate_raises_on_embedded_newline noFail 1 "A,B\n\"x\ny\",2\n" ⟨[], []⟩
    (by decide) rfl (by rfl) (fun _ => by rfl) (by decide)

/-! ## Claim theorems: value conversion -/

theorem convertValue_eq_specStored (col : String) (v : Option String) :
    convertValue col v = specStored col v := by
  cases v with
  | none => by_cases hcol : col ∈ numericCols <;> simp [convertValue, specStored, hcol]
  | some s =>
    by_cases hs : s = "" <;> by_cases hcol : col ∈ numericCols <;>
      simp [convertValue, specStored, hs, hcol]

/-- C2 (amended): on a successful load from an empty table, the stored rows are
exactly the CSV data records under the spec's column rule — the four numeric
columns hold NULL on blank, missing or non-numeric input and the parsed integer
otherwise, and every other column holds its source value verbatim when
non-blank, NULL when blank or missing. -/
theorem load_data_stores_spec_rows (fail : Nat → Option String) (b : Nat)
    (text : String) (db : DBState) (hb : b ≠ 0) (hdb : db.committed = [])
    (hok : (loadData fail b text db).2 = none) :
    (loadData fail b text db).1.committed = (dataRecords text).map (specRow (headerOf text)) := by
  rw [loadData_ok_shape fail b text db hb hok]
  simp only [hdb, List.nil_append]
  apply List.map_congr_left
  intro rec _
  unfold convertRecord specRow
  apply List.map_congr_left
  intro p _
  exact convertValue_eq_specStored p.2 (dictGet (headerOf text) rec p.1)

/-- C2 witness: a two-column CSV with a blank City and a non-blank Make loads
into exactly its spec-described rows. -/
theorem load_data_stores_spec_rows_witness :
    (loadData noFail 1 "City,Make\n,Tesla\n" ⟨[], []⟩).2 = none ∧
    (loadData noFail 1 "City,Make\n,Tesla\n" ⟨[], []⟩).1.committed =
      (dataRecords "City,Make\n,Tesla\n").map (specRow (headerOf "City,Make\n,Tesla\n")) := by
  have hok : (loadData noFail 1 "City,Make\n,Tesla\n" ⟨[], []⟩).2 = none := by rfl
  exact ⟨hok, load_data_stores_spec_rows noFail 1 "City,Make\n,Tesla\n" ⟨[], []⟩
    (by decide) rfl hok⟩

/-- C2 counterexample: a present-but-blank value in a non-numeric column
(City) is stored as NULL, not passed through verbatim as the empty string. -/
theorem blank_value_not_stored_verbatim :
    dictGet (headerOf "City,Make\n,Tesla\n") ((dataRecords "City,Make\n,Tesla\n").headD [])
        "City" = some "" ∧
    cityOf ((loadData noFail 1 "City,Make\n,Tesla\n" ⟨[], []⟩).1.committed.headD []) =
      Value.vnull ∧
    Value.vnull ≠ Value.vstr "" := by
  refine ⟨by rfl, by rfl, by decide⟩

/-! ## Claim theorems: the analytics queries -/

/-- C7: `count_cars_per_city` returns exactly one row per distinct City value,
pairing the city with the number of registrations of that city, in descending
order of the count (the first row holds the highest count). -/
theorem count_cars_per_city_correct (t : List Row) :
    ((count_cars_per_city t).map Prod.fst).Perm (t.map cityOf).dedup ∧
    (∀ p ∈ count_cars_per_city t, p.2 = countBy cityOf t p.1) ∧
    (count_cars_per_city t).Sorted (fun a b => b.2 ≤ a.2) := by
  refine ⟨?_, ?_, ?_⟩
  · have hperm := (List.perm_insertionSort (fun a b : Value × Nat => b.2 ≤ a.2)
      (((t.map cityOf).dedup).map (fun c => (c, countBy cityOf t c)))).map Prod.fst
    unfold count_cars_per_city
    rw [List.map_map] at hperm
    have hid : List.map (Prod.fst ∘ fun c => (c, countBy cityOf t c)) (t.map cityOf).dedup =
        (t.map cityOf).dedup := List.map_id _
    rwa [hid] at hperm
  · intro p hp
    unfold count_cars_per_city at hp
    rw [List.mem_insertionSort] at hp
    obtain ⟨c, _, hc⟩ := List.mem_map.mp hp
    rw [← hc]
  · exact List.sorted_insertionSort _ _

/-- C7 witness: Seattle holds two of the four sample registrations, and the
report row for Seattle carries exactly that count. -/
theorem count_cars_per_city_correct_witness :
    (Value.vstr "Seattle", 2) ∈ count_cars_per_city sampleTable ∧
    (Value.vstr "Seattle", 2).2 = countBy cityOf sampleTable (Value.vstr "Seattle") := by
  have hmem : (Value.vstr "Seattle", 2) ∈ count_cars_per_city sampleTable := by decide
  exact ⟨hmem, (count_cars_per_city_correct sampleTable).2.1 _ hmem⟩

/-- C6: `most_popular_vehicle_by_postal_code` returns exactly one row per
distinct Postal_Code present in the table, and each row's reported
(Make, Model) occurrence count within its postal code is maximal among all
(Make, Model) pairs of that postal code. -/
theorem most_popular_vehicle_by_postal_code_correct (t : List Row) :
    ((most_popular_vehicle_by_postal_code t).map (fun e => e.1)) = (t.map postalOf).dedup ∧
    ∀ e ∈ most_popular_vehicle_by_postal_code t,
      e.2.2.2 = pairCount t e.1 (e.2.1, e.2.2.1) ∧
      ∀ mm ∈ pairsOf t e.1, pairCount t e.1 mm ≤ e.2.2.2 := by
  constructor
  · have key : ∀ l : List Value, (∀ p ∈ l, pairsOf t p ≠ []) →
        (l.filterMap (fun p => (List.argmax (pairCount t p) (pairsOf t p)).map
          (fun mm => (p, mm.1, mm.2, pairCount t p mm)))).map (fun e => e.1) = l := by
      intro l hl
      induction l with
      | nil => simp
      | cons p rest ih =>
        have hne := hl p (List.mem_cons_self p rest)
        obtain ⟨mm, hmm⟩ : ∃ mm, List.argmax (pairCount t p) (pairsOf t p) = some mm := by
          cases hx : List.argmax (pairCount t p) (pairsOf t p) with
          | none => exact absurd (List.argmax_eq_none.mp hx) hne
          | some mm => exact ⟨mm, rfl⟩
        simp [List.filterMap_cons, hmm, ih (fun q hq => hl q (List.mem_cons_of_mem p hq))]
    have hne : ∀ p ∈ (t.map postalOf).dedup, pairsOf t p ≠ [] := by
      intro p hp
      rw [List.mem_dedup] at hp
      obtain ⟨r, hr, hpr⟩ := List.mem_map.mp hp
      have h1 : r ∈ t.filter (fun r => decide (postalOf r = p)) :=
        List.mem_filter.mpr ⟨hr, by simp [hpr]⟩
      have h2 : (makeOf r, modelOf r) ∈ pairsOf t p := by
        unfold pairsOf
        rw [List.mem_dedup]
        exact List.mem_map_of_mem _ h1
      exact List.ne_nil_of_mem h2
    exact key _ hne
  · intro e he
    unfold most_popular_vehicle_by_postal_code at he
    obtain ⟨p, hp, hFp⟩ := List.mem_filterMap.mp he
    obtain ⟨mm, hmm, hE⟩ := Option.map_eq_some'.mp hFp
    subst hE
    refine ⟨rfl, ?_⟩
    intro mm2 hmm2
    exact List.le_of_mem_argmax hmm2 (Option.mem_def.mpr hmm)

/-- C6 witness: in the shared postal code 98908 the TESLA MODEL 3 pair (two
occurrences) is reported, and the VOLVO S60 pair's count does not exceed it. -/
theorem most_popular_vehicle_by_postal_code_correct_witness :
    ((Value.vstr "98908", Value.vstr "TESLA", Value.vstr "MODEL 3", 2) ∈
      most_popular_vehicle_by_postal_code sampleTable) ∧
    ((Value.vstr "VOLVO", Value.vstr "S60") ∈ pairsOf sampleTable (Value.vstr "98908")) ∧
    pairCount sampleTable (Value.vstr "98908") (Value.vstr "VOLVO", Value.vstr "S60") ≤ 2 := by
  have hmem : (Value.vstr "98908", Value.vstr "TESLA", Value.vstr "MODEL 3", 2) ∈
      most_popular_vehicle_by_postal_code sampleTable := by decide
  have hpair : (Value.vstr "VOLVO", Value.vstr "S60") ∈
      pairsOf sampleTable (Value.vstr "98908") := by decide
  exact ⟨hmem, hpair,
    ((most_popular_vehicle_by_postal_code_correct sampleTable).2 _ hmem).2 _ hpair⟩

/-- C8: the partitioned model-year write of the reporter's `run` creates, for
each distinct (integer) model-year value of the table, exactly one group keyed
by that year, whose subdirectory is `model_year=<year>`, whose single file is
`electric_cars_<year>.parquet`, and whose rows are exactly the report rows of
that year (in particular all of them carry that year). -/
theorem model_year_partition_correct (t : List Row) :
    ((modelYearOutputs t).map OutFile.year).Nodup ∧
    (∀ y : Int, Value.vint y ∈ t.map modelYearOf → ∃ e ∈ modelYearOutputs t, e.year = y) ∧
    (∀ e ∈ modelYearOutputs t,
      e.dir = "model_year=" ++ toString e.year ∧
      e.file = "electric_cars_" ++ toString e.year ++ ".parquet" ∧
      e.rows = (count_cars_by_model_year t).filter (fun p => decide (p.1 = Value.vint e.year)) ∧
      e.rows ≠ [] ∧
      ∀ p ∈ e.rows, p.1 = Value.vint e.year) := by
  refine ⟨?_, ?_, ?_⟩
  · have hyears : (modelYearOutputs t).map OutFile.year =
        intYears (count_cars_by_model_year t) := by
      unfold modelYearOutputs partitionByYear
      rw [List.map_map]
      exact List.map_id _
    rw [hyears]
    unfold intYears
    exact ((List.perm_insertionSort _ _).nodup_iff).mpr (List.nodup_dedup _)
  · intro y hy
    have h1 : Value.vint y ∈ (t.map modelYearOf).dedup := List.mem_dedup.mpr hy
    have h2 : (Value.vint y, countBy modelYearOf t (Value.vint y)) ∈
        count_cars_by_model_year t := by
      unfold count_cars_by_model_year
      rw [List.mem_insertionSort]
      exact List.mem_map_of_mem _ h1
    have h3 : y ∈ intYears (count_cars_by_model_year t) := by
      unfold intYears
      rw [List.mem_insertionSort, List.mem_dedup]
      exact List.mem_filterMap.mpr ⟨_, h2, rfl⟩
    unfold modelYearOutputs partitionByYear
    exact ⟨_, List.mem_map_of_mem _ h3, rfl⟩
  · intro e he
    unfold modelYearOutputs partitionByYear at he
    obtain ⟨y, hy, hGy⟩ := List.mem_map.mp he
    subst hGy
    refine ⟨rfl, rfl, rfl, ?_, ?_⟩
    · unfold intYears at hy
      rw [List.mem_insertionSort, List.mem_dedup] at hy
      obtain ⟨p, hpdf, hpy⟩ := List.mem_filterMap.mp hy
      have hp1 : p.1 = Value.vint y := by
        cases hP : p.1 <;> rw [hP] at hpy <;> simp at hpy
        rw [hpy]
      have hpf : p ∈ (count_cars_by_model_year t).filter
          (fun q => decide (q.1 = Value.vint y)) :=
        List.mem_filter.mpr ⟨hpdf, by simp [hp1]⟩
      exact List.ne_nil_of_mem hpf
    · intro p hp
      have h := (List.mem_filter.mp hp).2
      simpa using h

/-- C8 witness: the sample table holds model years 2020, 2021 and one NULL;
the write produces a group for 2020 and exactly two groups in total. -/
theorem model_year_partition_correct_witness :
    (Value.vint 2020 ∈ sampleTable.map modelYearOf) ∧
    (∃ e ∈ modelYearOutputs sampleTable, e.year = 2020) ∧
    (modelYearOutputs sampleTable).length = 2 := by
  have hy : Value.vint 2020 ∈ sampleTable.map modelYearOf := by decide
  exact ⟨hy, (model_year_partition_correct sampleTable).2.1 2020 hy, by decide⟩

/-- C9: registrations with a NULL Model_Year contribute their own group row to
`count_cars_by_model_year`, but the partitioned writer in `run` emits no group
for the NULL year, so no written file contains the NULL-year row. -/
theorem null_year_counted_but_not_partitioned (t : List Row)
    (h : ∃ r ∈ t, modelYearOf r = Value.vnull) :
    (Value.vnull, countBy modelYearOf t Value.vnull) ∈ count_cars_by_model_year t ∧
    0 < countBy modelYearOf t Value.vnull ∧
    ∀ e ∈ modelYearOutputs t, ∀ p ∈ e.rows, p.1 ≠ Value.vnull := by
  obtain ⟨r, hr, hry⟩ := h
  refine ⟨?_, ?_, ?_⟩
  · unfold count_cars_by_model_year
    rw [List.mem_insertionSort]
    apply List.mem_map_of_mem
    rw [List.mem_dedup]
    exact hry ▸ List.mem_map_of_mem modelYearOf hr
  · unfold countBy
    rw [List.countP_pos_iff]
    exact ⟨r, hr, by simp [hry]⟩
  · intro e he p hp
    unfold modelYearOutputs partitionByYear at he
    obtain ⟨y, _, hGy⟩ := List.mem_map.mp he
    subst hGy
    have hfil := (List.mem_filter.mp hp).2
    simp only [decide_eq_true_eq] at hfil
    rw [hfil]
    simp

/-- C9 witness: the sample table's NULL-year registration is counted in the
model-year report with a positive count. -/
theorem null_year_counted_but_not_partitioned_witness :
    (∃ r ∈ sampleTable, modelYearOf r = Value.vnull) ∧
    (Value.vnull, countBy modelYearOf sampleTable Value.vnull) ∈
      count_cars_by_model_year sampleTable ∧
    0 < countBy modelYearOf sampleTable Value.vnull := by
  have hh : ∃ r ∈ sampleTable, modelYearOf r = Value.vnull := by decide
  have hc := null_year_counted_but_not_partitioned sampleTable hh
  exact ⟨hh, hc.1, hc.2.1⟩
